import Mathlib

/-!
Verification of the DNS query fan-out engine of `dns-tester-go`
(`internal/resolver/resolver.go`): the single-target query executor
`QueryServer` with its retry loop, the answer-record decoder, the
response-code rendering, and the fan-out coordinator `RunQueries`.

The network transport (`performQuery`, which delegates to the AdGuard
upstream library) and the cancellation context are modelled as an
environment: a function from the attempt index to the transport outcome,
plus the two cancellation observations the code makes per attempt
(`ctx.Done()` in the `select` before the attempt, `ctx.Err()` after a
failed attempt).  Observable side effects — network attempts, the fixed
retry-delay sleeps, and the error-classification metric increments —
are collected in an event log.
-/

namespace DnsTester

/-- Go `strings.TrimSuffix`: drop `suffix` from the end of `s` when present
(written over the character list so that it evaluates by structural
recursion). -/
def trimSuffix (s suffix : String) : String :=
  if suffix.data.isSuffixOf s.data then
    String.mk (s.data.take (s.data.length - suffix.data.length))
  else s

/-- Go `strings.ToUpper`, restricted to the ASCII strings DNS record-type
names are (written over the character list so that it evaluates by
structural recursion). -/
def toUpperAscii (s : String) : String := String.mk (s.data.map Char.toUpper)

/-- `CommandStatusOK` constant from `resolver.go`. -/
def CommandStatusOK : String := "ok"

/-- `CommandStatusError` constant from `resolver.go`. -/
def CommandStatusError : String := "error"

/-- `RCodeMapping` from `resolver.go`, keyed by the miekg/dns numeric rcode
constants (`RcodeSuccess = 0`, `RcodeFormatError = 1`, `RcodeServerFailure = 2`,
`RcodeNameError = 3`, `RcodeNotImplemented = 4`, `RcodeRefused = 5`). -/
def RCodeMapping : List (Nat × String) :=
  [(0, "NOERROR"), (1, "FORMERR"), (2, "SERVFAIL"),
   (3, "NXDOMAIN"), (4, "NOTIMP"), (5, "REFUSED")]

/-- The rcode rendering of the success path of `QueryServer`:
a Go map read returns `""` on a missing key, and the code replaces an
empty string by `UNKNOWN(n)`. -/
def renderRCode (n : Nat) : String :=
  let s := (RCodeMapping.lookup n).getD ("")
  if s = "" then ("UNKNOWN(" ++ toString n ++ ")") else s

/-- The fragment of the external `miekg/dns` `StringToType` table covering the
record types this repository's spec enumerates (external library data; the
source delegates to `dns.StringToType`). -/
def StringToType : List (String × Nat) :=
  [("A", 1), ("NS", 2), ("CNAME", 5), ("SOA", 6), ("PTR", 12), ("MX", 15),
   ("TXT", 16), ("AAAA", 28), ("SRV", 33), ("CAA", 257)]

/-- The matching fragment of the external `miekg/dns` `TypeToString` table. -/
def TypeToString : List (Nat × String) :=
  [(1, "A"), (2, "NS"), (5, "CNAME"), (6, "SOA"), (12, "PTR"), (15, "MX"),
   (16, "TXT"), (28, "AAAA"), (33, "SRV"), (257, "CAA")]

/-- `stringToQType` from `resolver.go`: upper-case the query-type string and
look it up in `dns.StringToType`; unknown strings yield the
`unsupported query type` error. -/
def stringToQType (qtype : String) : Except String Nat :=
  match StringToType.lookup (toUpperAscii qtype) with
  | some t => Except.ok t
  | none => Except.error ("unsupported query type: " ++ qtype)

/-- `qtypeToString` from `resolver.go`: reverse lookup with a `TYPEn`
fallback. -/
def qtypeToString (t : Nat) : String :=
  match TypeToString.lookup t with
  | some s => s
  | none => "TYPE" ++ toString t

/-- Modelled from the spec (§4.2 Protocol Resolver) and the repository's
tests: the `normalize` package holding `ProtocolConfigs` is not part of the
sources at hand, so the scheme → display-name table is reconstructed from the
spec's protocol list and the expected values in `resolver_test.go`
(`udp`/`tcp` → `Do53`, `tls` → `DoT`, `https` → `DoH`, `quic` → `DoQ`). -/
def ProtocolConfigs : List (String × String) :=
  [("udp", "Do53"), ("tcp", "Do53"), ("tls", "DoT"),
   ("https", "DoH"), ("quic", "DoQ")]

/-- The characters of the URL scheme: the prefix of the target before the
first `:`, accepted only when `://` follows (the shape of every normalized
target); `none` when the target has no parseable scheme. -/
def schemeChars : List Char → Option (List Char)
  | [] => none
  | c :: cs =>
    if c = ':' then
      match cs with
      | '/' :: '/' :: _ => some []
      | _ => none
    else
      match schemeChars cs with
      | some sc => some (c :: sc)
      | none => none

/-- `GetDNSProtocolFromTarget` from `resolver.go`: extract the URL scheme and
look up its display name; a target without a recognisable scheme yields
`Unknown`.  (URL parsing is reduced to splitting at `://`, the shape every
normalized target has.) -/
def GetDNSProtocolFromTarget (target : String) : String :=
  match schemeChars target.data with
  | some sc =>
    match ProtocolConfigs.lookup (String.mk sc) with
    | some name => name
    | none => "Unknown"
  | none => "Unknown"

/-- `models.DNSServer`: a target string plus opaque tags. -/
structure DNSServer where
  target : String
  tags : List String
deriving DecidableEq, Repr

/-- `models.DNSAnswer`: one decoded resource record. -/
structure DNSAnswer where
  name : String
  type : String
  ttl : Nat
  value : String
deriving DecidableEq, Repr

/-- `models.DNSLookupResult`: the outcome of one single-target query. -/
structure DNSLookupResult where
  commandStatus : String := ""
  timeMs : Rat := 0
  tags : List String := []
  rcode : String := ""
  name : String := ""
  qtype : String := ""
  answers : List DNSAnswer := []
  error : String := ""
  dnsProtocol : String := ""
deriving DecidableEq, Repr

/-- The header shared by all resource records (`rr.Header()`). -/
structure RRHeader where
  name : String
  rrtype : Nat
  ttl : Nat
deriving DecidableEq, Repr

/-- The type-specific payload of a resource record, one constructor per case
of the decoding type switch in `QueryServer`; `other` carries the record's
default textual representation (`rr.String()`). -/
inductive RRData where
  | A (addr : String)
  | AAAA (addr : String)
  | CNAME (target : String)
  | MX (preference : Nat) (mx : String)
  | NS (ns : String)
  | PTR (ptr : String)
  | TXT (txt : List String)
  | SOA (ns mbox : String) (serial refresh retryIv expire minttl : Nat)
  | SRV (priority weight port : Nat) (target : String)
  | CAA (flag : Nat) (tag value : String)
  | other (repr : String)
deriving DecidableEq, Repr

/-- A resource record. -/
structure RR where
  header : RRHeader
  data : RRData
deriving DecidableEq, Repr

/-- One question entry of a DNS message. -/
structure DNSQuestion where
  name : String
  qtype : Nat
deriving DecidableEq, Repr

/-- The part of a `dns.Msg` response that `QueryServer` reads. -/
structure DNSMsg where
  rcode : Nat
  question : List DNSQuestion
  answer : List RR
deriving DecidableEq, Repr

/-- The per-record body of the answer-decoding loop of `QueryServer`:
header fields plus the type-switch value formatting. -/
def decodeAnswer (rr : RR) : DNSAnswer :=
  { name := trimSuffix rr.header.name (".")
    type := qtypeToString rr.header.rrtype
    ttl := rr.header.ttl
    value :=
      match rr.data with
      | .A addr => addr
      | .AAAA addr => addr
      | .CNAME t => trimSuffix t (".")
      | .MX pref mx => toString pref ++ " " ++ trimSuffix mx (".")
      | .NS ns => trimSuffix ns (".")
      | .PTR ptr => trimSuffix ptr (".")
      | .TXT txt => String.intercalate (" ") txt
      | .SOA ns mbox serial refresh retryIv expire minttl =>
        trimSuffix ns (".") ++ " " ++ trimSuffix mbox (".") ++ " " ++
          toString serial ++ " " ++ toString refresh ++ " " ++
          toString retryIv ++ " " ++ toString expire ++ " " ++ toString minttl
      | .SRV priority weight port t =>
        toString priority ++ " " ++ toString weight ++ " " ++
          toString port ++ " " ++ trimSuffix t (".")
      | .CAA flag tag value => toString flag ++ " " ++ tag ++ " " ++ value
      | .other r => r }

/-- Observable side effects of `QueryServer`:
`attemptQuery i` marks the `performQuery` network call of attempt `i`,
`sleepRetryDelay` the fixed `time.Sleep(RetryDelay)` between retries, and
`metricError c` an increment of `metrics.DNSLookupErrors` with error
classification `c`. -/
inductive Event where
  | attemptQuery (i : Nat)
  | sleepRetryDelay
  | metricError (classification : String)
deriving DecidableEq, Repr

/-- What one `performQuery` call yields: the response message (possibly
absent), the measured round-trip time in microseconds, and the transport
error (absent on success).  `performQuery` can return a nil response with a
nil error when the upstream library does. -/
structure PerformResult where
  resp : Option DNSMsg
  rttMicros : Nat
  err : Option String
deriving DecidableEq, Repr

/-- The environment a `QueryServer` call runs in: the transport outcome of
each attempt index, the cancellation signal as the code observes it
(`doneBefore i` is the `select` on `ctx.Done()` before attempt `i`,
`errAfter i` is the `ctx.Err() != nil` test after attempt `i` came back
without a usable response), and the textual `ctx.Err()` message. -/
structure QueryEnv where
  perform : Nat → PerformResult
  doneBefore : Nat → Bool
  errAfter : Nat → Bool
  ctxErrMsg : String

/-- How the retry loop of `QueryServer` ended: a cancellation return, or
normal loop exit carrying the final values of the `response`/`rtt`/`err`
variables. -/
inductive LoopRes where
  | cancelled
  | finished (resp : Option DNSMsg) (rttMicros : Nat) (err : Option String)
deriving DecidableEq, Repr

/-- The retry loop of `QueryServer`
(`for attempt := 0; attempt < retries; attempt++`), with the event log of
the attempts and sleeps it performs.  `attempt` is the loop index and
`remaining = retries - attempt` the attempts still allowed, so `remaining = 0`
is the loop exit `attempt >= retries`; the Go sleep guard
`attempt < retries-1` is `remaining ≥ 2`, i.e. the `r ≠ 0` test after
`remaining = r + 1`.  `resp`, `rtt`, `err` are the current values of the
mutable variables of the Go code. -/
def queryLoop (env : QueryEnv) (attempt remaining : Nat)
    (resp : Option DNSMsg) (rtt : Nat) (err : Option String) :
    List Event × LoopRes :=
  match remaining with
  | 0 => ([], .finished resp rtt err)
  | r + 1 =>
    if env.doneBefore attempt then
      ([], .cancelled)
    else
      let q := env.perform attempt
      if q.err.isNone && q.resp.isSome then
        ([.attemptQuery attempt], .finished q.resp q.rttMicros q.err)
      else if env.errAfter attempt then
        ([.attemptQuery attempt], .cancelled)
      else if r = 0 then
        let rest := queryLoop env (attempt + 1) r q.resp q.rttMicros q.err
        (Event.attemptQuery attempt :: rest.1, rest.2)
      else
        let rest := queryLoop env (attempt + 1) r q.resp q.rttMicros q.err
        (Event.attemptQuery attempt :: Event.sleepRetryDelay :: rest.1, rest.2)

/-- The full return value of `QueryServer`: the map key (always
`server.Target`), the `DNSLookupResult`, and the event log. -/
structure QSOut where
  key : String
  result : DNSLookupResult
  events : List Event
deriving Repr

/-- `QueryServer` from `resolver.go`.  Go's `retries` is a signed int, kept
as `Int` here; the loop runs `retries.toNat` iterations since
`attempt < retries` never holds for non-positive `retries`.  The request
message built from `domain` and the type code is absorbed into the abstract
transport `env.perform`, which is given only the attempt index (message,
target and timeout are fixed for the whole call). -/
def QueryServer (env : QueryEnv) (domain qtype : String) (server : DNSServer)
    (retries : Int) : QSOut :=
  let base : DNSLookupResult :=
    { tags := server.tags
      dnsProtocol := GetDNSProtocolFromTarget server.target }
  match stringToQType qtype with
  | .error e =>
    { key := server.target
      result := { base with commandStatus := CommandStatusError, error := e }
      events := [.metricError ("invalid_qtype")] }
  | .ok _dnsType =>
    let lp := queryLoop env 0 retries.toNat none 0 none
    match lp.2 with
    | .cancelled =>
      { key := server.target
        result := { base with
          commandStatus := CommandStatusError
          error := "context cancelled: " ++ env.ctxErrMsg }
        events := lp.1 ++ [.metricError ("context_cancelled")] }
    | .finished resp rtt err =>
      match err with
      | some e =>
        { key := server.target
          result := { base with
            commandStatus := CommandStatusError
            error := "query failed: " ++ e }
          events := lp.1 ++ [.metricError ("query_failed")] }
      | none =>
        match resp with
        | none =>
          { key := server.target
            result := { base with
              commandStatus := CommandStatusError
              error := "no response received" }
            events := lp.1 ++ [.metricError ("no_response")] }
        | some response =>
          let rcodeTxt := renderRCode response.rcode
          let nameQt : String × String :=
            match response.question with
            | [] => ("", "")
            | q :: _ => (trimSuffix q.name ("."), qtypeToString q.qtype)
          { key := server.target
            result := { base with
              commandStatus := CommandStatusOK
              timeMs := (rtt : Rat) / 1000
              rcode := rcodeTxt
              name := nameQt.1
              qtype := nameQt.2
              answers := response.answer.map decodeAnswer }
            events := lp.1 }

/-- The network attempts with index at least `k` recorded in an event log. -/
def isAttemptFrom (k : Nat) : Event → Bool
  | .attemptQuery j => k ≤ j
  | _ => false

/-- Number of network attempts with index `≥ k` in an event log. -/
def attemptsFrom (k : Nat) (evs : List Event) : Nat :=
  (evs.filter (isAttemptFrom k)).length

/-- Number of retry-delay sleeps in an event log. -/
def sleepCount (evs : List Event) : Nat :=
  (evs.filter (fun e => e = Event.sleepRetryDelay)).length

/-!
The fan-out coordinator `RunQueries`.  The Go code spawns one goroutine per
server, each admitted through a buffered channel of capacity
`maxConcurrentQueries` acquired before the spawn and released on completion,
and each writing `results[target] = result` under a mutex; `wg.Wait()`
returns only once every goroutine finished.  This is modelled as a labelled
transition system: `start` admits the next server in loop order when a
semaphore slot is free, `finish` completes any in-flight server, appending it
to the completion order.  The result map is the mutex-serialised sequence of
map stores along that completion order.
-/

/-- One call of `RunQueries`: the inputs, with the transport/cancellation
environment of each server's goroutine given by index. -/
structure FanIn where
  domain : String
  qtype : String
  servers : List DNSServer
  envOf : Nat → QueryEnv
  retries : Int
  maxConcurrent : Nat

/-- The `QueryServer` call performed by the goroutine of server `i`. -/
def FanIn.qs (fi : FanIn) (i : Nat) : QSOut :=
  QueryServer (fi.envOf i) fi.domain fi.qtype
    (fi.servers.getD i { target := "", tags := [] }) fi.retries

/-- The map key the goroutine of server `i` writes (the returned target). -/
def FanIn.key (fi : FanIn) (i : Nat) : String := (fi.qs i).key

/-- The outcome the goroutine of server `i` writes. -/
def FanIn.outcome (fi : FanIn) (i : Nat) : DNSLookupResult := (fi.qs i).result

/-- A Go map store `m[k] = v` on an association-list representation with
unique keys: replace the binding when the key is present, append otherwise. -/
def mapInsert : List (String × DNSLookupResult) → String → DNSLookupResult →
    List (String × DNSLookupResult)
  | [], k, v => [(k, v)]
  | p :: m, k, v => if p.1 = k then (k, v) :: m else p :: mapInsert m k v

/-- Go map read `m[k]` (presence form). -/
def mapLookup : List (String × DNSLookupResult) → String → Option DNSLookupResult
  | [], _ => none
  | p :: m, k => if p.1 = k then some p.2 else mapLookup m k

/-- The key set of the map. -/
def mapKeys (m : List (String × DNSLookupResult)) : List String :=
  m.map Prod.fst

/-- The result map produced by the mutex-serialised stores of the goroutines,
in completion order `order`. -/
def fanResults (fi : FanIn) (order : List Nat) :
    List (String × DNSLookupResult) :=
  order.foldl (fun m i => mapInsert m (fi.key i) (fi.outcome i)) []

/-- State of a `RunQueries` execution: `launched` counts the servers whose
goroutine has been admitted (in loop order), `running` is the list of
admitted-but-unfinished server indices (the semaphore slot holders), and
`finished` the completion order so far. -/
structure FanState where
  launched : Nat
  running : List Nat
  finished : List Nat
deriving DecidableEq, Repr

/-- The initial state: nothing launched. -/
def FanState.init : FanState := { launched := 0, running := [], finished := [] }

/-- One scheduler step of `RunQueries` over `n` servers with semaphore
capacity `k`: `start` is the main loop acquiring a slot
(`pool <- struct{}{}`, enabled only while fewer than `k` slots are held) and
spawning the next goroutine; `finish i` is goroutine `i` completing its
query, storing its result and releasing its slot. -/
inductive FanStep (n k : Nat) : FanState → FanState → Prop
  | start (s : FanState) (hn : s.launched < n) (hk : s.running.length < k) :
      FanStep n k s
        { launched := s.launched + 1
          running := s.running ++ [s.launched]
          finished := s.finished }
  | finish (s : FanState) (i : Nat) (hi : i ∈ s.running) :
      FanStep n k s
        { launched := s.launched
          running := s.running.erase i
          finished := s.finished ++ [i] }

/-- States a `RunQueries` execution can reach. -/
def FanReachable (n k : Nat) (s : FanState) : Prop :=
  Relation.ReflTransGen (FanStep n k) FanState.init s

/-- `wg.Wait()` has returned: every server was launched and none is still
running, so `RunQueries` is at its `return results`. -/
def FanComplete (n : Nat) (s : FanState) : Prop :=
  s.launched = n ∧ s.running = []

/-- The map `RunQueries` returns in the execution recorded by `s`. -/
def runQueriesResult (fi : FanIn) (s : FanState) :
    List (String × DNSLookupResult) :=
  fanResults fi s.finished

/-! ### Helper lemmas about the single-target executor -/

/-- Every return path of `QueryServer` keys the outcome by `server.Target`. -/
theorem QueryServer_key (env : QueryEnv) (domain qtype : String)
    (server : DNSServer) (retries : Int) :
    (QueryServer env domain qtype server retries).key = server.target := by
  cases hq : stringToQType qtype with
  | error e => simp [QueryServer, hq]
  | ok tc =>
    cases hl : (queryLoop env 0 retries.toNat none 0 none).2 with
    | cancelled => simp [QueryServer, hq, hl]
    | finished resp rtt err =>
      cases err with
      | some e => simp [QueryServer, hq, hl]
      | none =>
        cases resp with
        | none => simp [QueryServer, hq, hl]
        | some response => simp [QueryServer, hq, hl]

/-- A network attempt with index `j` is only issued if the cancellation
check `ctx.Done()` was clear at every attempt from the loop entry up to and
including `j`. -/
theorem queryLoop_attempt_done (env : QueryEnv) :
    ∀ remaining attempt resp rtt err j,
      Event.attemptQuery j ∈ (queryLoop env attempt remaining resp rtt err).1 →
      ∀ i, attempt ≤ i → i ≤ j → env.doneBefore i = false := by
  intro remaining
  induction remaining with
  | zero =>
    intro attempt resp rtt err j h
    simp [queryLoop] at h
  | succ r ih =>
    intro attempt resp rtt err j h i hai hij
    rw [queryLoop] at h
    by_cases hd : env.doneBefore attempt
    · simp [hd] at h
    · simp only [hd, if_false, Bool.false_eq_true] at h
      have hia : i = attempt ∨ attempt + 1 ≤ i := by omega
      rcases hia with hia | hia
      · simpa [hia] using hd
      · split at h
        · simp at h
          omega
        · split at h
          · simp at h
            omega
          · split at h
            · simp at h
              rcases h with h | h
              · omega
              · exact ih (attempt + 1) _ _ _ j h i hia hij
            · simp at h
              rcases h with h | h
              · omega
              · exact ih (attempt + 1) _ _ _ j h i hia hij

/-- A network attempt with index `j` is only issued if the post-attempt
cancellation check `ctx.Err()` was clear at every earlier attempt from the
loop entry on. -/
theorem queryLoop_attempt_errAfter (env : QueryEnv) :
    ∀ remaining attempt resp rtt err j,
      Event.attemptQuery j ∈ (queryLoop env attempt remaining resp rtt err).1 →
      ∀ i, attempt ≤ i → i < j → env.errAfter i = false := by
  intro remaining
  induction remaining with
  | zero =>
    intro attempt resp rtt err j h
    simp [queryLoop] at h
  | succ r ih =>
    intro attempt resp rtt err j h i hai hij
    rw [queryLoop] at h
    by_cases hd : env.doneBefore attempt
    · simp [hd] at h
    · by_cases hbk :
        ((env.perform attempt).err.isNone && (env.perform attempt).resp.isSome) = true
      · simp [hd, hbk] at h
        omega
      · by_cases hea : env.errAfter attempt
        · simp [hd, hbk, hea] at h
          omega
        · have hia : i = attempt ∨ attempt + 1 ≤ i := by omega
          have hmem : j = attempt ∨ Event.attemptQuery j ∈
              (queryLoop env (attempt + 1) r (env.perform attempt).resp
                (env.perform attempt).rttMicros (env.perform attempt).err).1 := by
            by_cases hr : r = 0
            · simp [hd, hbk, hea, hr] at h
              tauto
            · simp [hd, hbk, hea, hr] at h
              tauto
          rcases hia with hia | hia
          · subst hia
            simpa using hea
          · rcases hmem with hmem | hmem
            · omega
            · exact ih (attempt + 1) _ _ _ j hmem i hia hij

/-- When every transport attempt reports an error, the retry loop can never
end in the success shape: it is either cancelled or finishes with an error
or a missing response. -/
theorem queryLoop_fail (env : QueryEnv)
    (hfail : ∀ n, (env.perform n).err ≠ none) :
    ∀ remaining attempt resp rtt err, err ≠ none ∨ resp = none →
      (queryLoop env attempt remaining resp rtt err).2 = .cancelled ∨
      ∃ resp2 rtt2 err2,
        (queryLoop env attempt remaining resp rtt err).2 =
          .finished resp2 rtt2 err2 ∧ (err2 ≠ none ∨ resp2 = none) := by
  intro remaining
  induction remaining with
  | zero =>
    intro attempt resp rtt err hre
    exact Or.inr ⟨resp, rtt, err, by simp [queryLoop], hre⟩
  | succ r ih =>
    intro attempt resp rtt err hre
    rw [queryLoop]
    by_cases hd : env.doneBefore attempt
    · simp [hd]
    · have hbk :
          ((env.perform attempt).err.isNone && (env.perform attempt).resp.isSome) = false := by
        cases he : (env.perform attempt).err with
        | none => exact absurd he (hfail attempt)
        | some e => simp [he]
      by_cases hea : env.errAfter attempt
      · simp [hd, hbk, hea]
      · by_cases hr : r = 0
        · subst hr
          simpa [hd, hbk, hea] using
            ih (attempt + 1) (env.perform attempt).resp
              (env.perform attempt).rttMicros (env.perform attempt).err
              (Or.inl (hfail attempt))
        · simpa [hd, hbk, hea, hr] using
            ih (attempt + 1) (env.perform attempt).resp
              (env.perform attempt).rttMicros (env.perform attempt).err
              (Or.inl (hfail attempt))

/-- `QueryServer` against a transport that always fails reports status
`error`, whatever the retry budget, the cancellation pattern and the
query type. -/
theorem QueryServer_alwaysFail (env : QueryEnv) (domain qtype : String)
    (server : DNSServer) (retries : Int)
    (hfail : ∀ n, (env.perform n).err ≠ none) :
    (QueryServer env domain qtype server retries).result.commandStatus =
      CommandStatusError := by
  cases hq : stringToQType qtype with
  | error e => simp [QueryServer, hq]
  | ok tc =>
    have h := queryLoop_fail env hfail retries.toNat 0 none 0 none (Or.inr rfl)
    rcases h with h | ⟨resp2, rtt2, err2, h, herr⟩
    · simp [QueryServer, hq, h]
    · cases err2 with
      | some e => simp [QueryServer, hq, h]
      | none =>
        have hr2 : resp2 = none := by
          rcases herr with herr | herr
          · exact absurd rfl herr
          · exact herr
        subst hr2
        simp [QueryServer, hq, h]

/-- When the very first attempt succeeds (no cancellation, transport returns
a response without error) and at least one attempt is allowed, `QueryServer`
takes the success path: status `ok`, the response's rcode rendered, and a
single network attempt in the log. -/
theorem QueryServer_success0 (env : QueryEnv) (domain qtype : String)
    (server : DNSServer) (retries : Int) (tc : Nat) (m : DNSMsg) (t : Nat)
    (hq : stringToQType qtype = .ok tc)
    (hd : env.doneBefore 0 = false)
    (hp : env.perform 0 = { resp := some m, rttMicros := t, err := none })
    (hr : 1 ≤ retries) :
    (QueryServer env domain qtype server retries).result.commandStatus =
        CommandStatusOK ∧
    (QueryServer env domain qtype server retries).result.rcode =
        renderRCode m.rcode ∧
    (QueryServer env domain qtype server retries).events =
        [.attemptQuery 0] := by
  obtain ⟨k, hk⟩ : ∃ k, retries.toNat = k + 1 := ⟨retries.toNat - 1, by omega⟩
  have hloop : queryLoop env 0 retries.toNat none 0 none =
      ([.attemptQuery 0], .finished (some m) t none) := by
    rw [hk, queryLoop]
    simp [hd, hp]
  simp [QueryServer, hq, hloop]

/-- When every attempt comes back with neither an error nor a response (the
empty-response anomaly), the loop consumes its whole budget — each anomalous
attempt is retried — and exits with no error and no response. -/
theorem queryLoop_anomaly (env : QueryEnv)
    (h1 : ∀ n, (env.perform n).err = none)
    (h2 : ∀ n, (env.perform n).resp = none)
    (hd : ∀ n, env.doneBefore n = false)
    (ha : ∀ n, env.errAfter n = false) :
    ∀ remaining attempt rtt,
      ∃ rtt2,
        (queryLoop env attempt remaining none rtt none).2 =
          .finished none rtt2 none ∧
        attemptsFrom 0 (queryLoop env attempt remaining none rtt none).1 =
          remaining := by
  intro remaining
  induction remaining with
  | zero =>
    intro attempt rtt
    exact ⟨rtt, by simp [queryLoop], by simp [queryLoop, attemptsFrom]⟩
  | succ r ih =>
    intro attempt rtt
    by_cases hr : r = 0
    · subst hr
      refine ⟨(env.perform attempt).rttMicros, ?_, ?_⟩ <;>
        · rw [queryLoop]
          simp [hd attempt, ha attempt, h1 attempt, h2 attempt, queryLoop,
            attemptsFrom, isAttemptFrom]
    · obtain ⟨rtt2, hfin, hcount⟩ := ih (attempt + 1) (env.perform attempt).rttMicros
      refine ⟨rtt2, ?_, ?_⟩
      · rw [queryLoop]
        simpa [hd attempt, ha attempt, h1 attempt, h2 attempt, hr] using hfin
      · rw [queryLoop]
        simp only [hd attempt, ha attempt, h1 attempt, h2 attempt, hr] at hcount ⊢
        simp [hd attempt, ha attempt, h1 attempt, h2 attempt, hr,
          attemptsFrom, isAttemptFrom] at hcount ⊢
        omega

/-- A network-attempt event in the log of `QueryServer` comes from its retry
loop (the classification metrics appended after the loop are not attempts). -/
theorem QueryServer_events_attempt (env : QueryEnv) (domain qtype : String)
    (server : DNSServer) (retries : Int) (j : Nat)
    (h : Event.attemptQuery j ∈ (QueryServer env domain qtype server retries).events) :
    Event.attemptQuery j ∈ (queryLoop env 0 retries.toNat none 0 none).1 := by
  cases hq : stringToQType qtype with
  | error e => simp [QueryServer, hq] at h
  | ok tc =>
    cases hl : (queryLoop env 0 retries.toNat none 0 none).2 with
    | cancelled =>
      simp [QueryServer, hq, hl] at h
      exact h
    | finished resp rtt err =>
      cases err with
      | some e =>
        simp [QueryServer, hq, hl] at h
        exact h
      | none =>
        cases resp with
        | none =>
          simp [QueryServer, hq, hl] at h
          exact h
        | some response =>
          simp [QueryServer, hq, hl] at h
          exact h

/-! ### Claims about the single-target executor -/

/-- Claim C3: for retries = 3 and a transport whose first two attempts fail
and whose third succeeds, `QueryServer` returns status ok and exactly two
fixed retry delays elapse — one after each failed attempt that still has
attempts remaining, none after the successful attempt. -/
theorem claim_C3 (env : QueryEnv) (domain qtype : String) (server : DNSServer)
    (tc : Nat) (m : DNSMsg) (e0 e1 : String)
    (hq : stringToQType qtype = .ok tc)
    (hp0 : (env.perform 0).err = some e0)
    (hp1 : (env.perform 1).err = some e1)
    (hp2e : (env.perform 2).err = none)
    (hp2r : (env.perform 2).resp = some m)
    (hd : ∀ n, env.doneBefore n = false)
    (ha : ∀ n, env.errAfter n = false) :
    (QueryServer env domain qtype server 3).result.commandStatus =
        CommandStatusOK ∧
    sleepCount (QueryServer env domain qtype server 3).events = 2 ∧
    (QueryServer env domain qtype server 3).events =
      [.attemptQuery 0, .sleepRetryDelay, .attemptQuery 1, .sleepRetryDelay,
        .attemptQuery 2] := by
  have hloop : queryLoop env 0 3 none 0 none =
      ([.attemptQuery 0, .sleepRetryDelay, .attemptQuery 1, .sleepRetryDelay,
        .attemptQuery 2],
        .finished (env.perform 2).resp (env.perform 2).rttMicros
          (env.perform 2).err) := by
    rw [queryLoop]
    simp only [hd, ha, hp0, hp1, Bool.false_eq_true, if_false, Option.isNone_some,
      Bool.false_and, Nat.succ_ne_zero, Nat.zero_add, Nat.add_zero]
    rw [queryLoop]
    simp only [hd, ha, hp1, Bool.false_eq_true, if_false, Option.isNone_some,
      Bool.false_and, Nat.succ_ne_zero]
    rw [queryLoop]
    simp [hd, ha, hp2e, hp2r]
  have h3 : (3 : Int).toNat = 3 := rfl
  rw [hp2e, hp2r] at hloop
  constructor
  · simp [QueryServer, hq, h3, hloop]
  constructor
  · simp [QueryServer, hq, h3, hloop, sleepCount]
  · simp [QueryServer, hq, h3, hloop]

/-- Claim C4: an unrecognized record-type string makes `QueryServer` return
an error outcome with classification invalid-qtype immediately, with zero
network attempts. -/
theorem claim_C4 (env : QueryEnv) (domain qtype : String) (server : DNSServer)
    (retries : Int) (e : String)
    (hq : stringToQType qtype = .error e) :
    (QueryServer env domain qtype server retries).result.commandStatus =
        CommandStatusError ∧
    (QueryServer env domain qtype server retries).result.error = e ∧
    (QueryServer env domain qtype server retries).events =
        [.metricError ("invalid_qtype")] ∧
    attemptsFrom 0 (QueryServer env domain qtype server retries).events = 0 := by
  refine ⟨?_, ?_, ?_, ?_⟩ <;> simp [QueryServer, hq, attemptsFrom, isAttemptFrom]

/-- Claim C5: once the cancellation signal is observed set, `QueryServer`
issues no further network attempt — the `ctx.Done()` check before attempt
`k` blocks attempts `k` and beyond, the `ctx.Err()` check after a failed
attempt `k` blocks attempts beyond `k` — and a cancelled loop yields an
error outcome classified context-cancelled. -/
theorem claim_C5 (env : QueryEnv) (domain qtype : String) (server : DNSServer)
    (retries : Int) (k : Nat) (tc : Nat)
    (hq : stringToQType qtype = .ok tc) :
    (env.doneBefore k = true →
      attemptsFrom k (QueryServer env domain qtype server retries).events = 0) ∧
    (env.errAfter k = true →
      attemptsFrom (k + 1)
        (QueryServer env domain qtype server retries).events = 0) ∧
    ((queryLoop env 0 retries.toNat none 0 none).2 = .cancelled →
      (QueryServer env domain qtype server retries).result.commandStatus =
          CommandStatusError ∧
      (QueryServer env domain qtype server retries).result.error =
          "context cancelled: " ++ env.ctxErrMsg ∧
      Event.metricError ("context_cancelled") ∈
        (QueryServer env domain qtype server retries).events) := by
  refine ⟨?_, ?_, ?_⟩
  · intro hdk
    have hall : ∀ e ∈ (QueryServer env domain qtype server retries).events,
        ¬(isAttemptFrom k e = true) := by
      intro e he his
      cases e with
      | attemptQuery j =>
        have hj : k ≤ j := by simpa [isAttemptFrom] using his
        have hmem := QueryServer_events_attempt env domain qtype server retries j he
        have hfd := queryLoop_attempt_done env retries.toNat 0 none 0 none j hmem
          k (Nat.zero_le k) hj
        simp [hfd] at hdk
      | sleepRetryDelay => simp [isAttemptFrom] at his
      | metricError c => simp [isAttemptFrom] at his
    simpa [attemptsFrom, List.length_eq_zero, List.filter_eq_nil] using hall
  · intro hek
    have hall : ∀ e ∈ (QueryServer env domain qtype server retries).events,
        ¬(isAttemptFrom (k + 1) e = true) := by
      intro e he his
      cases e with
      | attemptQuery j =>
        have hj : k + 1 ≤ j := by simpa [isAttemptFrom] using his
        have hmem := QueryServer_events_attempt env domain qtype server retries j he
        have hfe := queryLoop_attempt_errAfter env retries.toNat 0 none 0 none j hmem
          k (Nat.zero_le k) (by omega)
        simp [hfe] at hek
      | sleepRetryDelay => simp [isAttemptFrom] at his
      | metricError c => simp [isAttemptFrom] at his
    simpa [attemptsFrom, List.length_eq_zero, List.filter_eq_nil] using hall
  · intro hc
    refine ⟨?_, ?_, ?_⟩ <;> simp [QueryServer, hq, hc]

/-- Claim C6 counterexample: with retries = 2, a first attempt returning
neither error nor response (the empty-response anomaly) and a second attempt
succeeding, `QueryServer` retries after the anomaly — two network attempts
happen — and returns status ok, not the terminal no-response error the
claim predicts. -/
def anomalyThenOkEnv : QueryEnv :=
  { perform := fun n =>
      if n = 0 then { resp := none, rttMicros := 0, err := none }
      else { resp := some { rcode := 0, question := [], answer := [] },
             rttMicros := 0, err := none }
    doneBefore := fun _ => false
    errAfter := fun _ => false
    ctxErrMsg := "context canceled" }

/-- Claim C6 is false on the code: the empty-response anomaly on a non-final
attempt does not end retrying.  Concretely, with retries = 2, an anomalous
first attempt and a successful second one, `QueryServer` issues a second
network attempt and returns ok with no error message. -/
theorem claim_C6_counterexample :
    (QueryServer anomalyThenOkEnv ("example.com") ("A")
        { target := "udp://9.9.9.9:53", tags := [] } 2).result.commandStatus =
      CommandStatusOK ∧
    attemptsFrom 0 (QueryServer anomalyThenOkEnv ("example.com") ("A")
        { target := "udp://9.9.9.9:53", tags := [] } 2).events = 2 ∧
    (QueryServer anomalyThenOkEnv ("example.com") ("A")
        { target := "udp://9.9.9.9:53", tags := [] } 2).result.error ≠
      "no response received" := by
  refine ⟨by decide, by decide, by decide⟩

/-- Claim C6 amended: an empty-response attempt is retried like a transport
failure while attempts remain; only when the attempt loop ends with neither
an error nor a response — every allowed attempt was consumed — does
`QueryServer` return the terminal error with classification no-response and
message "no response received". -/
theorem claim_C6_amended (env : QueryEnv) (domain qtype : String)
    (server : DNSServer) (retries : Int) (tc : Nat)
    (hq : stringToQType qtype = .ok tc)
    (h1 : ∀ n, (env.perform n).err = none)
    (h2 : ∀ n, (env.perform n).resp = none)
    (hd : ∀ n, env.doneBefore n = false)
    (ha : ∀ n, env.errAfter n = false) :
    (QueryServer env domain qtype server retries).result.commandStatus =
        CommandStatusError ∧
    (QueryServer env domain qtype server retries).result.error =
        "no response received" ∧
    Event.metricError ("no_response") ∈
        (QueryServer env domain qtype server retries).events ∧
    attemptsFrom 0 (QueryServer env domain qtype server retries).events =
        retries.toNat := by
  obtain ⟨rtt2, hfin, hcount⟩ :=
    queryLoop_anomaly env h1 h2 hd ha retries.toNat 0 0
  have hev : (QueryServer env domain qtype server retries).events =
      (queryLoop env 0 retries.toNat none 0 none).1 ++
        [.metricError ("no_response")] := by
    simp [QueryServer, hq, hfin]
  refine ⟨?_, ?_, ?_, ?_⟩
  · simp [QueryServer, hq, hfin]
  · simp [QueryServer, hq, hfin]
  · simp [hev]
  · rw [hev]
    simp only [attemptsFrom, List.filter_append] at hcount ⊢
    simp [List.filter, isAttemptFrom, hcount]

/-- Claim C7: a successful attempt whose response carries the NXDOMAIN
numeric code (3) yields an ok outcome whose response-code field is the
string NXDOMAIN — a name error is a success, not a query failure; and the
numeric-to-text rendering maps 0..5 to NOERROR, FORMERR, SERVFAIL, NXDOMAIN,
NOTIMP, REFUSED and any other code n to UNKNOWN(n). -/
theorem claim_C7 (env : QueryEnv) (domain qtype : String) (server : DNSServer)
    (retries : Int) (tc : Nat) (m : DNSMsg) (t : Nat) (n : Nat)
    (hq : stringToQType qtype = .ok tc)
    (hd : env.doneBefore 0 = false)
    (hp : env.perform 0 = { resp := some m, rttMicros := t, err := none })
    (hr : 1 ≤ retries)
    (hn : 5 < n) :
    (QueryServer env domain qtype server retries).result.commandStatus =
        CommandStatusOK ∧
    (QueryServer env domain qtype server retries).result.rcode =
        renderRCode m.rcode ∧
    (m.rcode = 3 →
      (QueryServer env domain qtype server retries).result.rcode =
        "NXDOMAIN") ∧
    renderRCode 0 = "NOERROR" ∧ renderRCode 1 = "FORMERR" ∧
    renderRCode 2 = "SERVFAIL" ∧ renderRCode 3 = "NXDOMAIN" ∧
    renderRCode 4 = "NOTIMP" ∧ renderRCode 5 = "REFUSED" ∧
    renderRCode n = "UNKNOWN(" ++ toString n ++ ")" := by
  obtain ⟨hok, hrc, hev⟩ :=
    QueryServer_success0 env domain qtype server retries tc m t hq hd hp hr
  have h0 : n ≠ 0 := by omega
  have h1 : n ≠ 1 := by omega
  have h2 : n ≠ 2 := by omega
  have h3 : n ≠ 3 := by omega
  have h4 : n ≠ 4 := by omega
  have h5 : n ≠ 5 := by omega
  refine ⟨hok, hrc, ?_, by decide, by decide, by decide, by decide, by decide,
    by decide, ?_⟩
  · intro hrc3
    rw [hrc, hrc3]
    decide
  · have b0 : (n == 0) = false := by simp [h0]
    have b1 : (n == 1) = false := by simp [h1]
    have b2 : (n == 2) = false := by simp [h2]
    have b3 : (n == 3) = false := by simp [h3]
    have b4 : (n == 4) = false := by simp [h4]
    have b5 : (n == 5) = false := by simp [h5]
    simp [renderRCode, RCodeMapping, List.lookup, b0, b1, b2, b3, b4, b5]

/-- The MX record of the spec's worked example: preference 10, exchange
mail.example.com. with its trailing dot. -/
def mxSampleRR : RR :=
  { header := { name := "example.com.", rrtype := 15, ttl := 300 }
    data := .MX 10 ("mail.example.com.") }

/-- Claim C8: the decoder renders an MX record as the preference, a space,
and the exchange name with its trailing dot stripped; in particular
preference 10 with exchange mail.example.com. decodes to the value
"10 mail.example.com". -/
theorem claim_C8 (hdr : RRHeader) (p : Nat) (e0 : String) :
    (decodeAnswer { header := hdr, data := .MX p (e0 ++ ".") }).value =
      toString p ++ " " ++ e0 ∧
    (decodeAnswer mxSampleRR).value = "10 mail.example.com" := by
  constructor
  · have hsuf : (".".data.isSuffixOf (e0 ++ ".").data) = true := by
      simp [String.data_append, List.isSuffixOf, List.isPrefixOf]
    have htrim : trimSuffix (e0 ++ ".") "." = e0 := by
      simp only [trimSuffix, hsuf, if_true, String.data_append]
      simp [List.take_append]
    simp [decodeAnswer, htrim]
  · decide

/-- Claim C10: calling `QueryServer` with a non-positive retry budget and a
valid record type skips the attempt loop entirely — no network attempt —
and, both `err` and `response` still being nil, returns an error outcome
with message "no response received" and classification no-response. -/
theorem claim_C10 (env : QueryEnv) (domain qtype : String) (server : DNSServer)
    (retries : Int) (tc : Nat)
    (hr : retries ≤ 0)
    (hq : stringToQType qtype = .ok tc) :
    (QueryServer env domain qtype server retries).result.commandStatus =
        CommandStatusError ∧
    (QueryServer env domain qtype server retries).result.error =
        "no response received" ∧
    (QueryServer env domain qtype server retries).events =
        [.metricError ("no_response")] ∧
    attemptsFrom 0 (QueryServer env domain qtype server retries).events = 0 := by
  have h0 : retries.toNat = 0 := Int.toNat_of_nonpos hr
  refine ⟨?_, ?_, ?_, ?_⟩ <;>
    simp [QueryServer, hq, h0, queryLoop, attemptsFrom, isAttemptFrom]

/-! ### Helper lemmas about the fan-out coordinator -/

/-- Storing under a key and reading back: the fresh binding under that key,
anything else untouched. -/
theorem mapLookup_insert (m : List (String × DNSLookupResult)) (k : String)
    (v : DNSLookupResult) (t : String) :
    mapLookup (mapInsert m k v) t = if k = t then some v else mapLookup m t := by
  induction m with
  | nil =>
    by_cases h : k = t <;> simp [mapInsert, mapLookup, h]
  | cons p m ih =>
    by_cases hp : p.1 = k
    · subst hp
      by_cases ht : p.1 = t <;> simp [mapInsert, mapLookup, ht]
    · by_cases ht : p.1 = t
      · have hkt : ¬k = t := fun h => hp (ht.trans h.symm)
        simp only [mapInsert, if_neg hp, mapLookup, if_pos ht, if_neg hkt]
      · simp only [mapInsert, if_neg hp, mapLookup, if_neg ht]
        exact ih

/-- The key list after a store: unchanged when the key was present, extended
by the key otherwise. -/
theorem mapKeys_insert (m : List (String × DNSLookupResult)) (k : String)
    (v : DNSLookupResult) :
    mapKeys (mapInsert m k v) =
      if k ∈ mapKeys m then mapKeys m else mapKeys m ++ [k] := by
  induction m with
  | nil => simp [mapInsert, mapKeys]
  | cons p m ih =>
    by_cases hp : p.1 = k
    · subst hp
      simp [mapInsert, mapKeys]
    · have hne : ¬k = p.1 := fun h => hp h.symm
      have hcons : mapKeys (mapInsert (p :: m) k v) =
          p.1 :: mapKeys (mapInsert m k v) := by
        simp [mapInsert, mapKeys, hp]
      by_cases hm : k ∈ mapKeys m
      · have hmem : k ∈ mapKeys (p :: m) := by
          simp only [mapKeys, List.map_cons, List.mem_cons]
          exact Or.inr hm
        rw [hcons, ih, if_pos hm, if_pos hmem]
        simp [mapKeys]
      · have hmem : k ∉ mapKeys (p :: m) := by
          simp only [mapKeys, List.map_cons, List.mem_cons]
          rintro (h | h)
          · exact hne h
          · exact hm h
        rw [hcons, ih, if_neg hm, if_neg hmem]
        simp [mapKeys]

/-- The key set after a store: the old keys plus the stored key. -/
theorem mem_mapKeys_insert (m : List (String × DNSLookupResult)) (k : String)
    (v : DNSLookupResult) (t : String) :
    t ∈ mapKeys (mapInsert m k v) ↔ t ∈ mapKeys m ∨ t = k := by
  rw [mapKeys_insert]
  by_cases hm : k ∈ mapKeys m
  · simp only [if_pos hm]
    constructor
    · exact Or.inl
    · rintro (h | h)
      · exact h
      · exact h ▸ hm
  · simp [if_neg hm]

/-- A store never duplicates keys. -/
theorem nodup_mapKeys_insert (m : List (String × DNSLookupResult)) (k : String)
    (v : DNSLookupResult) (h : (mapKeys m).Nodup) :
    (mapKeys (mapInsert m k v)).Nodup := by
  rw [mapKeys_insert]
  by_cases hm : k ∈ mapKeys m
  · simpa [if_pos hm] using h
  · simp [if_neg hm, List.nodup_append, h, hm]

/-- Reading the serialized stores of a completion order: the value written
by the last completed index whose key matches, else whatever the base map
held. -/
theorem mapLookup_fanFold (fi : FanIn) (t : String)
    (m : List (String × DNSLookupResult)) (order : List Nat) :
    mapLookup
        (order.foldl (fun acc i => mapInsert acc (fi.key i) (fi.outcome i)) m) t =
      match (order.filter fun i => fi.key i == t).getLast? with
      | some j => some (fi.outcome j)
      | none => mapLookup m t := by
  induction order using List.reverseRecOn with
  | nil => simp
  | append_singleton l i ih =>
    rw [List.foldl_append, List.foldl_cons, List.foldl_nil, mapLookup_insert,
      List.filter_append]
    by_cases hk : fi.key i = t
    · simp [hk]
    · have hkb : (fi.key i == t) = false := by simpa using hk
      simp [hk, hkb, ih]

/-- Key membership over the serialized stores of a completion order. -/
theorem mem_mapKeys_fanFold (fi : FanIn) (t : String)
    (m : List (String × DNSLookupResult)) (order : List Nat) :
    t ∈ mapKeys
        (order.foldl (fun acc i => mapInsert acc (fi.key i) (fi.outcome i)) m) ↔
      t ∈ mapKeys m ∨ ∃ i ∈ order, fi.key i = t := by
  induction order using List.reverseRecOn with
  | nil => simp
  | append_singleton l i ih =>
    rw [List.foldl_append, List.foldl_cons, List.foldl_nil, mem_mapKeys_insert, ih]
    constructor
    · rintro ((h | ⟨j, hj, hjk⟩) | h)
      · exact Or.inl h
      · exact Or.inr ⟨j, by simp [hj], hjk⟩
      · exact Or.inr ⟨i, by simp, h.symm⟩
    · rintro (h | ⟨j, hj, hjk⟩)
      · exact Or.inl (Or.inl h)
      · rcases List.mem_append.mp hj with hj | hj
        · exact Or.inl (Or.inr ⟨j, hj, hjk⟩)
        · have : j = i := by simpa using hj
          exact Or.inr (this ▸ hjk).symm

/-- The serialized stores keep the key set duplicate-free. -/
theorem nodup_mapKeys_fanFold (fi : FanIn)
    (m : List (String × DNSLookupResult)) (order : List Nat)
    (h : (mapKeys m).Nodup) :
    (mapKeys
      (order.foldl (fun acc i => mapInsert acc (fi.key i) (fi.outcome i)) m)).Nodup := by
  induction order using List.reverseRecOn generalizing m with
  | nil => simpa
  | append_singleton l i ih =>
    rw [List.foldl_append, List.foldl_cons, List.foldl_nil]
    exact nodup_mapKeys_insert _ _ _ (ih m h)

/-- Execution invariant of `RunQueries`: the in-flight and completed indices
together are exactly the launched indices (each launched once, none lost),
and no more servers are launched than exist. -/
theorem fanReachable_inv (n k : Nat) (s : FanState)
    (h : FanReachable n k s) :
    (s.running ++ s.finished).Perm (List.range s.launched) ∧ s.launched ≤ n := by
  induction h with
  | refl => simp [FanState.init]
  | tail hsteps hstep ih =>
    rename_i s2 s3
    cases hstep with
    | start hn hk =>
      refine ⟨?_, by simpa using hn⟩
      have h1 : ((s2.running ++ [s2.launched]) ++ s2.finished).Perm
          ((s2.running ++ s2.finished) ++ [s2.launched]) := by
        rw [List.append_assoc, List.append_assoc]
        exact List.Perm.append_left _ List.perm_append_comm
      have h2 : ((s2.running ++ s2.finished) ++ [s2.launched]).Perm
          (List.range s2.launched ++ [s2.launched]) :=
        List.Perm.append_right _ ih.1
      have h3 : List.range s2.launched ++ [s2.launched] =
          List.range (s2.launched + 1) := (List.range_succ s2.launched).symm
      simpa using (h1.trans h2).trans (h3 ▸ List.Perm.refl _)
    | finish i hi =>
      refine ⟨?_, ih.2⟩
      have h1 : (s2.running.erase i ++ (s2.finished ++ [i])).Perm
          (s2.finished ++ (i :: s2.running.erase i)) := by
        have hcomm :=
          @List.perm_append_comm _ (s2.running.erase i) (s2.finished ++ [i])
        simpa [List.append_assoc] using hcomm
      have h2 : (s2.finished ++ (i :: s2.running.erase i)).Perm
          (s2.finished ++ s2.running) :=
        List.Perm.append_left _ (List.perm_cons_erase hi).symm
      exact (h1.trans h2).trans (List.perm_append_comm.trans ih.1)

/-- When `wg.Wait()` has returned, the completion order is a permutation of
all server indices: every server produced exactly one outcome. -/
theorem fanComplete_perm (n k : Nat) (s : FanState)
    (hr : FanReachable n k s) (hc : FanComplete n s) :
    s.finished.Perm (List.range n) := by
  obtain ⟨hperm, _⟩ := fanReachable_inv n k s hr
  rcases hc with ⟨hl, hrun⟩
  rw [hrun] at hperm
  simpa [hl] using hperm

/-- The key a goroutine writes is its server's target string. -/
theorem FanIn.key_eq (fi : FanIn) (i : Nat) :
    fi.key i = (fi.servers.getD i { target := "", tags := [] }).target :=
  QueryServer_key _ _ _ _ _

/-- A string is a target of some server iff some index below the server
count keys it. -/
theorem mem_targets_iff (fi : FanIn) (t : String) :
    t ∈ fi.servers.map (fun sv => sv.target) ↔
      ∃ i < fi.servers.length, fi.key i = t := by
  rw [List.mem_map]
  constructor
  · rintro ⟨sv, hsv, hst⟩
    obtain ⟨i, hilen, hget⟩ := List.mem_iff_getElem.mp hsv
    refine ⟨i, hilen, ?_⟩
    rw [FanIn.key_eq, List.getD_eq_getElem _ _ hilen, hget, hst]
  · rintro ⟨i, hilen, hkey⟩
    refine ⟨fi.servers[i], List.getElem_mem hilen, ?_⟩
    rw [FanIn.key_eq, List.getD_eq_getElem _ _ hilen] at hkey
    exact hkey

/-- A list permuting a two-element list of distinct elements is one of its
two arrangements. -/
theorem perm_pair_cases {l : List Nat} {a b : Nat} (hab : a ≠ b)
    (h : l.Perm [a, b]) : l = [a, b] ∨ l = [b, a] := by
  have hlen : l.length = 2 := by simpa using h.length_eq
  cases l with
  | nil => simp at hlen
  | cons x l1 =>
    cases l1 with
    | nil => simp at hlen
    | cons y l2 =>
      cases l2 with
      | cons z l3 => simp at hlen
      | nil =>
        have hx : x = a ∨ x = b := by
          simpa using h.mem_iff.mp (show x ∈ [x, y] by simp)
        have hy : y = a ∨ y = b := by
          simpa using h.mem_iff.mp (show y ∈ [x, y] by simp)
        have hnd : ([x, y] : List Nat).Nodup := by
          rw [h.nodup_iff]
          simp [hab]
        have hxy : x ≠ y := by simpa using hnd
        rcases hx with hx | hx <;> rcases hy with hy | hy
        · exact absurd (hx.trans hy.symm) hxy
        · exact Or.inl (by rw [hx, hy])
        · exact Or.inr (by rw [hx, hy])
        · exact absurd (hx.trans hy.symm) hxy

/-! ### Claims about the fan-out coordinator -/

/-- Claim C9: with a concurrency ceiling smaller than the number of targets,
every reachable state of the fan-out has at most that many queries in
flight — a semaphore slot is acquired before each task starts and released
when it completes. -/
theorem claim_C9 (n k : Nat) (s : FanState) (hkn : k < n)
    (h : FanReachable n k s) : s.running.length ≤ k := by
  induction h with
  | refl => simp [FanState.init]
  | tail hsteps hstep ih =>
    rename_i s2 s3
    cases hstep with
    | start hn hk =>
      have : (s2.running ++ [s2.launched]).length = s2.running.length + 1 := by
        simp
      simp only [this]
      omega
    | finish i hi =>
      have herase := List.length_erase_of_mem hi
      simp only [herase]
      omega

/-- Claim C2: once the fan-out completes, the result mapping's key set is
exactly the set of distinct target strings of the input servers (unique
keys), and the value under each key is the outcome of the last-completed
server carrying that target — duplicates overwrite, last writer wins. -/
theorem claim_C2 (fi : FanIn) (s : FanState)
    (hr : FanReachable fi.servers.length fi.maxConcurrent s)
    (hc : FanComplete fi.servers.length s) :
    (mapKeys (runQueriesResult fi s)).Nodup ∧
    (∀ t, t ∈ mapKeys (runQueriesResult fi s) ↔
      t ∈ fi.servers.map (fun sv => sv.target)) ∧
    (∀ t, mapLookup (runQueriesResult fi s) t =
      ((s.finished.filter fun i => fi.key i == t).getLast?).map
        (fun j => fi.outcome j)) := by
  have hperm := fanComplete_perm fi.servers.length fi.maxConcurrent s hr hc
  refine ⟨?_, ?_, ?_⟩
  · exact nodup_mapKeys_fanFold fi [] s.finished (by simp [mapKeys])
  · intro t
    rw [runQueriesResult, fanResults, mem_mapKeys_fanFold, mem_targets_iff]
    simp only [mapKeys, List.map_nil, List.not_mem_nil, false_or]
    constructor
    · rintro ⟨i, hi, hk⟩
      have : i ∈ List.range fi.servers.length := hperm.mem_iff.mp hi
      exact ⟨i, List.mem_range.mp this, hk⟩
    · rintro ⟨i, hi, hk⟩
      have : i ∈ s.finished := hperm.mem_iff.mpr (List.mem_range.mpr hi)
      exact ⟨i, this, hk⟩
  · intro t
    rw [runQueriesResult, fanResults, mapLookup_fanFold]
    cases hg : (s.finished.filter fun i => fi.key i == t).getLast? <;>
      simp [mapLookup]

/-- Claim C1: a two-target fan-out where target A's query succeeds and
target B's transport always fails still completes normally with an outcome
for every target: the mapping has exactly two entries, A's with status ok
and B's with status error — partial failure is data, not an operation-level
error. -/
theorem claim_C1 (fi : FanIn) (s : FanState) (A B : DNSServer)
    (tc : Nat) (m : DNSMsg) (t0 : Nat)
    (hs : fi.servers = [A, B])
    (hAB : A.target ≠ B.target)
    (hq : stringToQType fi.qtype = .ok tc)
    (hdA : (fi.envOf 0).doneBefore 0 = false)
    (hpA : (fi.envOf 0).perform 0 =
      { resp := some m, rttMicros := t0, err := none })
    (hret : 1 ≤ fi.retries)
    (hB : ∀ j, ((fi.envOf 1).perform j).err ≠ none)
    (hr : FanReachable fi.servers.length fi.maxConcurrent s)
    (hc : FanComplete fi.servers.length s) :
    (runQueriesResult fi s).length = 2 ∧
    mapLookup (runQueriesResult fi s) A.target = some (fi.outcome 0) ∧
    (fi.outcome 0).commandStatus = CommandStatusOK ∧
    mapLookup (runQueriesResult fi s) B.target = some (fi.outcome 1) ∧
    (fi.outcome 1).commandStatus = CommandStatusError := by
  have hlen : fi.servers.length = 2 := by rw [hs]; rfl
  have hperm := fanComplete_perm fi.servers.length fi.maxConcurrent s hr hc
  rw [hlen] at hperm
  have hperm2 : s.finished.Perm [0, 1] := by
    simpa [List.range_succ] using hperm
  have hkey0 : fi.key 0 = A.target := by
    rw [FanIn.key_eq, hs]
    rfl
  have hkey1 : fi.key 1 = B.target := by
    rw [FanIn.key_eq, hs]
    rfl
  have hok : (fi.outcome 0).commandStatus = CommandStatusOK := by
    have h0 := QueryServer_success0 (fi.envOf 0) fi.domain fi.qtype
      (fi.servers.getD 0 { target := "", tags := [] }) fi.retries tc m t0
      hq hdA hpA hret
    exact h0.1
  have herr : (fi.outcome 1).commandStatus = CommandStatusError :=
    QueryServer_alwaysFail (fi.envOf 1) fi.domain fi.qtype
      (fi.servers.getD 1 { target := "", tags := [] }) fi.retries hB
  have hBA : ¬B.target = A.target := fun h => hAB h.symm
  rcases perm_pair_cases (by omega) hperm2 with hfin | hfin <;>
    rw [runQueriesResult, hfin] <;>
      refine ⟨?_, ?_, hok, ?_, herr⟩ <;>
        simp [fanResults, mapInsert, mapLookup, hkey0, hkey1, hAB, hBA]

/-! ### Concrete witnesses -/

/-- A transport that times out on the first two attempts and answers on the
third, under a never-cancelled context. -/
def retryEnv : QueryEnv :=
  { perform := fun n =>
      if n ≤ 1 then { resp := none, rttMicros := 0, err := some ("timeout") }
      else { resp := some { rcode := 0, question := [], answer := [] }
             rttMicros := 4, err := none }
    doneBefore := fun _ => false
    errAfter := fun _ => false
    ctxErrMsg := "context canceled" }

/-- A server used by the single-target witnesses. -/
def sampleServer : DNSServer := { target := "udp://9.9.9.9:53", tags := [] }

/-- Witness for claim C3 at a concrete transport. -/
theorem claim_C3_witness :
    (QueryServer retryEnv ("example.com") ("A") sampleServer 3).result.commandStatus =
        CommandStatusOK ∧
    sleepCount (QueryServer retryEnv ("example.com") ("A") sampleServer 3).events = 2 := by
  have h := claim_C3 retryEnv ("example.com") ("A") sampleServer 1
    { rcode := 0, question := [], answer := [] } ("timeout") ("timeout")
    rfl (by decide) (by decide) (by decide) (by decide)
    (fun n => rfl) (fun n => rfl)
  exact ⟨h.1, h.2.1⟩

/-- A transport that always reports a connection error, never cancelled. -/
def idleEnv : QueryEnv :=
  { perform := fun _ => { resp := none, rttMicros := 0, err := some ("unreachable") }
    doneBefore := fun _ => false
    errAfter := fun _ => false
    ctxErrMsg := "context canceled" }

/-- Witness for claim C4 at the unrecognized record type BOGUS. -/
theorem claim_C4_witness :
    (QueryServer idleEnv ("example.com") ("BOGUS") sampleServer 3).result.commandStatus =
        CommandStatusError ∧
    (QueryServer idleEnv ("example.com") ("BOGUS") sampleServer 3).events =
        [.metricError ("invalid_qtype")] ∧
    attemptsFrom 0 (QueryServer idleEnv ("example.com") ("BOGUS") sampleServer 3).events = 0 := by
  have h := claim_C4 idleEnv ("example.com") ("BOGUS") sampleServer 3
    ("unsupported query type: BOGUS") rfl
  exact ⟨h.1, h.2.2.1, h.2.2.2⟩

/-- A context that is cancelled from attempt 1 on, over a failing
transport. -/
def cancelEnv : QueryEnv :=
  { perform := fun _ => { resp := none, rttMicros := 0, err := some ("refused") }
    doneBefore := fun i => i != 0
    errAfter := fun i => i != 0
    ctxErrMsg := "context canceled" }

/-- Witness for claim C5: cancellation observed from attempt 1 on blocks all
later attempts and classifies the outcome context-cancelled. -/
theorem claim_C5_witness :
    attemptsFrom 1 (QueryServer cancelEnv ("example.com") ("A") sampleServer 3).events = 0 ∧
    attemptsFrom 2 (QueryServer cancelEnv ("example.com") ("A") sampleServer 3).events = 0 ∧
    (QueryServer cancelEnv ("example.com") ("A") sampleServer 3).result.commandStatus =
        CommandStatusError ∧
    Event.metricError ("context_cancelled") ∈
        (QueryServer cancelEnv ("example.com") ("A") sampleServer 3).events := by
  obtain ⟨w1, w2, w3⟩ :=
    claim_C5 cancelEnv ("example.com") ("A") sampleServer 3 1 1 rfl
  have hcl := w3 (by decide)
  exact ⟨w1 rfl, w2 rfl, hcl.1, hcl.2.2⟩

/-- A transport whose every attempt returns neither error nor response. -/
def anomalyEnv : QueryEnv :=
  { perform := fun _ => { resp := none, rttMicros := 0, err := none }
    doneBefore := fun _ => false
    errAfter := fun _ => false
    ctxErrMsg := "context canceled" }

/-- Witness for the amended claim C6: an all-anomalous transport consumes
both attempts of a retries = 2 budget and ends in the no-response error. -/
theorem claim_C6_amended_witness :
    (QueryServer anomalyEnv ("example.com") ("A") sampleServer 2).result.commandStatus =
        CommandStatusError ∧
    (QueryServer anomalyEnv ("example.com") ("A") sampleServer 2).result.error =
        "no response received" ∧
    attemptsFrom 0 (QueryServer anomalyEnv ("example.com") ("A") sampleServer 2).events = 2 := by
  have h := claim_C6_amended anomalyEnv ("example.com") ("A") sampleServer 2 1
    rfl (fun n => rfl) (fun n => rfl) (fun n => rfl) (fun n => rfl)
  exact ⟨h.1, h.2.1, h.2.2.2⟩

/-- A transport answering immediately with an NXDOMAIN response. -/
def nxEnv : QueryEnv :=
  { perform := fun _ =>
      { resp := some { rcode := 3, question := [], answer := [] }
        rttMicros := 7, err := none }
    doneBefore := fun _ => false
    errAfter := fun _ => false
    ctxErrMsg := "context canceled" }

/-- Witness for claim C7: an NXDOMAIN answer is an ok outcome with
response-code NXDOMAIN, and code 17 renders as UNKNOWN(17). -/
theorem claim_C7_witness :
    (QueryServer nxEnv ("example.com") ("A") sampleServer 1).result.commandStatus =
        CommandStatusOK ∧
    (QueryServer nxEnv ("example.com") ("A") sampleServer 1).result.rcode =
        "NXDOMAIN" ∧
    renderRCode 17 = "UNKNOWN(17)" := by
  have h := claim_C7 nxEnv ("example.com") ("A") sampleServer 1 1
    { rcode := 3, question := [], answer := [] } 7 17
    rfl rfl (by decide) (by decide) (by decide)
  exact ⟨h.1, h.2.2.1 rfl, h.2.2.2.2.2.2.2.2.2⟩

/-- Witness for claim C10: a zero retry budget yields the no-response error
with no network attempt. -/
theorem claim_C10_witness :
    (QueryServer idleEnv ("example.com") ("A") sampleServer 0).result.commandStatus =
        CommandStatusError ∧
    (QueryServer idleEnv ("example.com") ("A") sampleServer 0).result.error =
        "no response received" ∧
    attemptsFrom 0 (QueryServer idleEnv ("example.com") ("A") sampleServer 0).events = 0 := by
  have h := claim_C10 idleEnv ("example.com") ("A") sampleServer 0 1
    (by decide) rfl
  exact ⟨h.1, h.2.1, h.2.2.2⟩

/-- A transport that answers at once (for target A of the fan-out
witnesses). -/
def okEnv : QueryEnv :=
  { perform := fun _ =>
      { resp := some { rcode := 0, question := [], answer := [] }
        rttMicros := 3, err := none }
    doneBefore := fun _ => false
    errAfter := fun _ => false
    ctxErrMsg := "context canceled" }

/-- A transport that always fails (for target B of the fan-out
witnesses). -/
def failEnv : QueryEnv :=
  { perform := fun _ =>
      { resp := none, rttMicros := 0, err := some ("connection refused") }
    doneBefore := fun _ => false
    errAfter := fun _ => false
    ctxErrMsg := "context canceled" }

/-- A two-server fan-out call — A succeeds, B always fails — with a
concurrency ceiling of 1. -/
def fanABIn : FanIn :=
  { domain := "example.com"
    qtype := "A"
    servers := [{ target := "udp://9.9.9.9:53", tags := [] },
                { target := "udp://8.8.8.8:53", tags := [] }]
    envOf := fun i => if i = 0 then okEnv else failEnv
    retries := 1
    maxConcurrent := 1 }

/-- The completed state of the sequential schedule of `fanABIn`. -/
def fanABDone : FanState := { launched := 2, running := [], finished := [0, 1] }

/-- The sequential schedule start 0, finish 0, start 1, finish 1 reaches the
completed state under ceiling 1. -/
theorem fanAB_reach : FanReachable 2 1 fanABDone := by
  have h1 : FanStep 2 1 FanState.init
      { launched := 1, running := [0], finished := [] } :=
    FanStep.start FanState.init (by decide) (by decide)
  have h2 : FanStep 2 1 { launched := 1, running := [0], finished := [] }
      { launched := 1, running := [], finished := [0] } :=
    FanStep.finish { launched := 1, running := [0], finished := [] } 0 (by simp)
  have h3 : FanStep 2 1 { launched := 1, running := [], finished := [0] }
      { launched := 2, running := [1], finished := [0] } :=
    FanStep.start { launched := 1, running := [], finished := [0] }
      (by decide) (by decide)
  have h4 : FanStep 2 1 { launched := 2, running := [1], finished := [0] }
      { launched := 2, running := [], finished := [0, 1] } :=
    FanStep.finish { launched := 2, running := [1], finished := [0] } 1 (by simp)
  exact Relation.ReflTransGen.tail
    (Relation.ReflTransGen.tail
      (Relation.ReflTransGen.tail
        (Relation.ReflTransGen.tail Relation.ReflTransGen.refl h1) h2) h3) h4

/-- Witness for claim C1 on the concrete two-server fan-out. -/
theorem claim_C1_witness :
    (runQueriesResult fanABIn fanABDone).length = 2 ∧
    mapLookup (runQueriesResult fanABIn fanABDone) ("udp://9.9.9.9:53") =
        some (fanABIn.outcome 0) ∧
    (fanABIn.outcome 0).commandStatus = CommandStatusOK ∧
    mapLookup (runQueriesResult fanABIn fanABDone) ("udp://8.8.8.8:53") =
        some (fanABIn.outcome 1) ∧
    (fanABIn.outcome 1).commandStatus = CommandStatusError := by
  have h := claim_C1 fanABIn fanABDone
    { target := "udp://9.9.9.9:53", tags := [] }
    { target := "udp://8.8.8.8:53", tags := [] }
    1 { rcode := 0, question := [], answer := [] } 3
    rfl (by decide) rfl rfl (by decide) (by decide)
    (fun j => by simp [fanABIn, failEnv])
    fanAB_reach ⟨rfl, rfl⟩
  exact h

/-- Witness for claim C2 on the concrete two-server fan-out, read at target
B's key. -/
theorem claim_C2_witness :
    (mapKeys (runQueriesResult fanABIn fanABDone)).Nodup ∧
    (("udp://8.8.8.8:53") ∈ mapKeys (runQueriesResult fanABIn fanABDone) ↔
      ("udp://8.8.8.8:53") ∈ fanABIn.servers.map fun sv => sv.target) ∧
    mapLookup (runQueriesResult fanABIn fanABDone) ("udp://8.8.8.8:53") =
      ((fanABDone.finished.filter
          fun i => fanABIn.key i == "udp://8.8.8.8:53").getLast?).map
        (fun j => fanABIn.outcome j) := by
  obtain ⟨w1, w2, w3⟩ := claim_C2 fanABIn fanABDone fanAB_reach ⟨rfl, rfl⟩
  exact ⟨w1, w2 _, w3 _⟩

/-- Witness for claim C9: the initial state of a fan-out over 2 targets with
ceiling 1 respects the bound. -/
theorem claim_C9_witness : FanState.init.running.length ≤ 1 :=
  claim_C9 2 1 FanState.init (by decide) Relation.ReflTransGen.refl

end DnsTester
